import Mathlib

/-!
Verification of the Cherry OpenFlow controller core against its
natural-language specification.

The development shallowly embeds three pieces of the Go source:

* the `openflow` action model (`BaseAction` with its MAC setters/getters),
* the `of10` message codec (`ParseMessage`, `FeaturesReply.UnmarshalBinary`),
* the discovery engine (`OnDeviceUp` canceller-table handling and
  `OnPacketIn` ARP processing).

Machine integers are embedded as `Nat` (with explicit `% 2 ^ w` where Go
truncates), byte slices as `List Nat`, Go's nil-able slices as
`Option (List Nat)`, and fallible operations return explicit error values.
Every Go slice access in the codec goes through a checked accessor so that
an out-of-bounds access (a Go panic) is a distinguished outcome `oob` of the
decode, never an unprovable side condition.

Parts of the repository that the provided sources only call into — the
`openflow.Header`/`Message` decoders, the `of10` numeric constants, the
`Port` and body decoders of the other message types, and the `protocol.ARP`
decoder — are either modelled from the specification (marked as such in
their doc comments) or taken as parameters and quantified over.
-/

set_option maxRecDepth 4096

namespace Cherry

/-- Error taxonomy of the spec (§7): invalid hardware address, buffer
shorter than declared or minimum length, unknown message type or sub-type,
and encode attempted on a receive-only message. -/
inductive Err where
  | invalidAddress
  | invalidPacketLength
  | unsupportedMessage
  | unsupportedMarshaling
  deriving DecidableEq, Repr

/-! ## Action model (openflow package, `BaseAction`) -/

/-- The all-zero hardware address returned by the getters when no value is
present (`openflow.ZeroMAC`). -/
def ZeroMAC : List Nat := [0, 0, 0, 0, 0, 0]

/-- `openflow.BaseAction`: an output-port set plus two optional MAC fields.
Go's `map[uint]interface\x7b\x7d` key set is embedded as a duplicate-free list;
the nil-able `*net.HardwareAddr` fields become `Option`. -/
structure BaseAction where
  output : List Nat
  srcMAC : Option (List Nat)
  dstMAC : Option (List Nat)
  deriving DecidableEq, Repr

/-- `openflow.NewBaseAction()`. -/
def NewBaseAction : BaseAction := { output := [], srcMAC := none, dstMAC := none }

/-- `BaseAction.SetOutput`: records port membership, never fails. -/
def BaseAction.SetOutput (r : BaseAction) (port : Nat) : BaseAction × Option Err :=
  ({ r with output := if port ∈ r.output then r.output else r.output ++ [port] }, none)

/-- `BaseAction.SetSrcMAC`: rejects a nil slice or one shorter than 6 bytes,
otherwise stores the address.  The Go method mutates the receiver and
returns only an error; the embedding returns the (possibly unchanged)
record together with the error. -/
def BaseAction.SetSrcMAC (r : BaseAction) (mac : Option (List Nat)) : BaseAction × Option Err :=
  match mac with
  | none => (r, some Err.invalidAddress)
  | some m =>
    if m.length < 6 then (r, some Err.invalidAddress)
    else ({ r with srcMAC := some m }, none)

/-- `BaseAction.SrcMAC`: returns (present, value); the zero address when absent. -/
def BaseAction.SrcMAC (r : BaseAction) : Bool × List Nat :=
  match r.srcMAC with
  | none => (false, ZeroMAC)
  | some m => (true, m)

/-- `BaseAction.SetDstMAC`: same contract as `SetSrcMAC` for the destination field. -/
def BaseAction.SetDstMAC (r : BaseAction) (mac : Option (List Nat)) : BaseAction × Option Err :=
  match mac with
  | none => (r, some Err.invalidAddress)
  | some m =>
    if m.length < 6 then (r, some Err.invalidAddress)
    else ({ r with dstMAC := some m }, none)

/-- `BaseAction.DstMAC`: returns (present, value); the zero address when absent. -/
def BaseAction.DstMAC (r : BaseAction) : Bool × List Nat :=
  match r.dstMAC with
  | none => (false, ZeroMAC)
  | some m => (true, m)

/-! ## Byte-level utilities -/

/-- Checked embedding of the Go slice expression `data[i:j]`: `none` exactly
when Go would panic (index out of range). -/
def slice? (data : List Nat) (i j : Nat) : Option (List Nat) :=
  if i ≤ j ∧ j ≤ data.length then some ((data.drop i).take (j - i)) else none

/-- Big-endian interpretation of a byte list, as used by
`binary.BigEndian.Uint16/Uint32/Uint64` on the corresponding slices. -/
def beNat (bytes : List Nat) : Nat :=
  bytes.foldl (fun acc b => acc * 256 + b) 0

/-- The 16-bit big-endian length field at bytes 2-3 of an OpenFlow header. -/
def headerDeclaredLength (data : List Nat) : Nat :=
  data.getD 2 0 * 256 + data.getD 3 0

/-- Outcome of a decode step: success, a returned error, or a Go panic from
an out-of-bounds slice access. -/
inductive DecodeResult (α : Type) where
  | ok (v : α)
  | error (e : Err)
  | oob
  deriving DecidableEq, Repr

/-- Functorial action on the success case of a `DecodeResult`. -/
def DecodeResult.mapOk {α β : Type} (f : α → β) : DecodeResult α → DecodeResult β
  | .ok v => .ok (f v)
  | .error e => .error e
  | .oob => .oob

/-! ## OpenFlow header and message (openflow package)

The `openflow.Header` and `openflow.Message` decoders are not among the
provided sources; they are modelled from the specification. -/

/-- The common OpenFlow v1.0 header: 8 bytes
\x7bversion:1, type:1, length:2 big-endian, xid:4\x7d (spec §6). -/
structure Header where
  version : Nat
  type : Nat
  length : Nat
  xid : Nat
  deriving DecidableEq, Repr

/-- Modelled from the spec: `openflow.Header.UnmarshalBinary` decodes the
8-byte common header; per §3 the invariant `length ≥ header size and
≤ the byte buffer presented` is enforced, and a violation is a hard decode
failure reported as `InvalidPacketLength` (§7: buffer shorter than the
header's declared or minimum length). -/
def Header.UnmarshalBinary (data : List Nat) : DecodeResult Header :=
  if data.length < 8 then .error Err.invalidPacketLength
  else
    let length := headerDeclaredLength data
    if length < 8 ∨ data.length < length then .error Err.invalidPacketLength
    else
      .ok { version := data.getD 0 0, type := data.getD 1 0, length := length,
            xid := beNat ((data.drop 4).take 4) }

/-- Modelled from the spec: `openflow.Message` wraps the decoded common
header (ParseMessage step 1 decodes "the common header only"); `Type()`
reads the header's type discriminator. -/
structure Message where
  header : Header
  deriving DecidableEq, Repr

/-- Modelled from the spec: `openflow.Message.UnmarshalBinary` decodes only
the common header and propagates its error (§4.2 step 1). -/
def Message.UnmarshalBinary (data : List Nat) : DecodeResult Message :=
  (Header.UnmarshalBinary data).mapOk (fun h => { header := h })

/-- `Message.Type()`. -/
def Message.Type (m : Message) : Nat := m.header.type

/-! ## of10 protocol constants

The numeric constant declarations are not among the provided sources; they
are modelled from the OpenFlow 1.0 standard that the spec's §6 declares
bit-exact authority ("must match the standard's bit table exactly"); the
spec's §8 scenario fixes `OFPT_FEATURES_REPLY = 6`. -/

def OFPT_FEATURES_REPLY : Nat := 6
def OFPT_GET_CONFIG_REPLY : Nat := 8
def OFPT_FLOW_REMOVED : Nat := 11
def OFPT_PORT_STATUS : Nat := 12
def OFPT_STATS_REPLY : Nat := 17

/-- Statistics sub-type: description statistics. -/
def OFPST_DESC : Nat := 0

def OFPC_FLOW_STATS : Nat := 1 <<< 0
def OFPC_TABLE_STATS : Nat := 1 <<< 1
def OFPC_PORT_STATS : Nat := 1 <<< 2
def OFPC_STP : Nat := 1 <<< 3
def OFPC_RESERVED : Nat := 1 <<< 4
def OFPC_IP_REASM : Nat := 1 <<< 5
def OFPC_QUEUE_STATS : Nat := 1 <<< 6
def OFPC_ARP_MATCH_IP : Nat := 1 <<< 7

def OFPAT_OUTPUT : Nat := 0
def OFPAT_SET_VLAN_VID : Nat := 1
def OFPAT_SET_VLAN_PCP : Nat := 2
def OFPAT_STRIP_VLAN : Nat := 3
def OFPAT_SET_DL_SRC : Nat := 4
def OFPAT_SET_DL_DST : Nat := 5
def OFPAT_SET_NW_SRC : Nat := 6
def OFPAT_SET_NW_DST : Nat := 7
def OFPAT_SET_NW_TOS : Nat := 8
def OFPAT_SET_TP_SRC : Nat := 9
def OFPAT_SET_TP_DST : Nat := 10
def OFPAT_ENQUEUE : Nat := 11

/-! ## FeaturesReply (of10 package) -/

/-- `of10.Capability`: eight named booleans decoded from the 32-bit
capabilities mask. -/
structure Capability where
  OFPC_FLOW_STATS : Bool
  OFPC_TABLE_STATS : Bool
  OFPC_PORT_STATS : Bool
  OFPC_STP : Bool
  OFPC_RESERVED : Bool
  OFPC_IP_REASM : Bool
  OFPC_QUEUE_STATS : Bool
  OFPC_ARP_MATCH_IP : Bool
  deriving DecidableEq, Repr

/-- `of10.Action`: twelve named booleans decoded from the 32-bit
supported-actions mask. -/
structure Action where
  OFPAT_OUTPUT : Bool
  OFPAT_SET_VLAN_VID : Bool
  OFPAT_SET_VLAN_PCP : Bool
  OFPAT_STRIP_VLAN : Bool
  OFPAT_SET_DL_SRC : Bool
  OFPAT_SET_DL_DST : Bool
  OFPAT_SET_NW_SRC : Bool
  OFPAT_SET_NW_DST : Bool
  OFPAT_SET_NW_TOS : Bool
  OFPAT_SET_TP_SRC : Bool
  OFPAT_SET_TP_DST : Bool
  OFPAT_ENQUEUE : Bool
  deriving DecidableEq, Repr

/-- `of10.getSupportedAction`: tests bit `1 << OFPAT_*` of the mask for
each named flag. -/
def getSupportedAction (actions : Nat) : Action :=
  { OFPAT_OUTPUT := actions &&& (1 <<< OFPAT_OUTPUT) != 0,
    OFPAT_SET_VLAN_VID := actions &&& (1 <<< OFPAT_SET_VLAN_VID) != 0,
    OFPAT_SET_VLAN_PCP := actions &&& (1 <<< OFPAT_SET_VLAN_PCP) != 0,
    OFPAT_STRIP_VLAN := actions &&& (1 <<< OFPAT_STRIP_VLAN) != 0,
    OFPAT_SET_DL_SRC := actions &&& (1 <<< OFPAT_SET_DL_SRC) != 0,
    OFPAT_SET_DL_DST := actions &&& (1 <<< OFPAT_SET_DL_DST) != 0,
    OFPAT_SET_NW_SRC := actions &&& (1 <<< OFPAT_SET_NW_SRC) != 0,
    OFPAT_SET_NW_DST := actions &&& (1 <<< OFPAT_SET_NW_DST) != 0,
    OFPAT_SET_NW_TOS := actions &&& (1 <<< OFPAT_SET_NW_TOS) != 0,
    OFPAT_SET_TP_SRC := actions &&& (1 <<< OFPAT_SET_TP_SRC) != 0,
    OFPAT_SET_TP_DST := actions &&& (1 <<< OFPAT_SET_TP_DST) != 0,
    OFPAT_ENQUEUE := actions &&& (1 <<< OFPAT_ENQUEUE) != 0 }

/-- `of10.getCapability`: tests mask constant `OFPC_*` of the mask for each
named flag. -/
def getCapability (capabilities : Nat) : Capability :=
  { OFPC_FLOW_STATS := capabilities &&& OFPC_FLOW_STATS != 0,
    OFPC_TABLE_STATS := capabilities &&& OFPC_TABLE_STATS != 0,
    OFPC_PORT_STATS := capabilities &&& OFPC_PORT_STATS != 0,
    OFPC_STP := capabilities &&& OFPC_STP != 0,
    OFPC_RESERVED := capabilities &&& OFPC_RESERVED != 0,
    OFPC_IP_REASM := capabilities &&& OFPC_IP_REASM != 0,
    OFPC_QUEUE_STATS := capabilities &&& OFPC_QUEUE_STATS != 0,
    OFPC_ARP_MATCH_IP := capabilities &&& OFPC_ARP_MATCH_IP != 0 }

/-- The decoded form of an `of10.Port` record.  The `Port` struct and its
decoder are not among the provided sources, so the decoded value is kept
abstract as the port decoder's output; see `BodyDecoders`. -/
abbrev PortData := List Nat

/-- `of10.FeaturesReply`. -/
structure FeaturesReply where
  header : Header
  DPID : Nat
  NumBuffers : Nat
  NumTables : Nat
  Capabilities : Capability
  Actions : Action
  Ports : List PortData
  deriving DecidableEq, Repr

/-- `FeaturesReply.MarshalBinary`: marshaling is unsupported for this
receive-only message. -/
def FeaturesReply.MarshalBinary (_ : FeaturesReply) : DecodeResult (List Nat) :=
  .error Err.unsupportedMarshaling

/-- The checked fixed-offset reads of `FeaturesReply.UnmarshalBinary`:
`data[8:16]`, `data[16:20]`, `data[20]`, `data[24:28]`, `data[28:32]`. -/
def featuresFields? (data : List Nat) : Option (Nat × Nat × Nat × Nat × Nat) := do
  let dpid ← slice? data 8 16
  let nbuf ← slice? data 16 20
  let ntab ← data.get? 20
  let caps ← slice? data 24 28
  let acts ← slice? data 28 32
  pure (beNat dpid, beNat nbuf, ntab, beNat caps, beNat acts)

/-- The port-decoding loop of `FeaturesReply.UnmarshalBinary`: for
`i, i+1, ..., i+k-1` it takes `buf := data[32+i*48:]`, decodes
`buf[0:48]` with the port decoder `pd`, and aborts on the first error. -/
def decodePortsAux (pd : List Nat → DecodeResult PortData) (data : List Nat) :
    Nat → Nat → DecodeResult (List PortData)
  | _, 0 => .ok []
  | i, k + 1 =>
    match slice? data (32 + i * 48) data.length with
    | none => .oob
    | some buf =>
      match slice? buf 0 48 with
      | none => .oob
      | some w =>
        match pd w with
        | .error e => .error e
        | .oob => .oob
        | .ok p => (decodePortsAux pd data (i + 1) k).mapOk (fun ps => p :: ps)

/-- `of10.FeaturesReply.UnmarshalBinary`, parameterized by the `Port`
decoder `pd` (the `Port` type's decoder is not among the provided sources):
decode the header, re-validate `header.Length ≥ 32` and
`len(data) ≥ header.Length`, read the fixed fields, then decode
`(header.Length - 32) / 48` port records from consecutive 48-byte windows
starting at offset 32. -/
def FeaturesReply.UnmarshalBinary (pd : List Nat → DecodeResult PortData)
    (data : List Nat) : DecodeResult FeaturesReply :=
  match Header.UnmarshalBinary data with
  | .error e => .error e
  | .oob => .oob
  | .ok hdr =>
    if hdr.length < 32 ∨ data.length < hdr.length then .error Err.invalidPacketLength
    else
      match featuresFields? data with
      | none => .oob
      | some (dpid, nbuf, ntab, caps, acts) =>
        let nPorts := (hdr.length - 32) / 48
        let base : FeaturesReply :=
          { header := hdr, DPID := dpid, NumBuffers := nbuf, NumTables := ntab,
            Capabilities := getCapability caps, Actions := getSupportedAction acts,
            Ports := [] }
        if nPorts = 0 then .ok base
        else (decodePortsAux pd data 0 nPorts).mapOk (fun ps => { base with Ports := ps })

/-! ## ParseMessage (of10 package) -/

/-- The typed incoming-message values `ParseMessage` can produce.  The
bodies of the message types whose decoders are not among the provided
sources are kept abstract. -/
inductive Incoming where
  | featuresReply (v : FeaturesReply)
  | getConfigReply (v : List Nat)
  | descriptionReply (v : List Nat)
  | portStatus (v : List Nat)
  | flowRemoved (v : List Nat)
  deriving DecidableEq, Repr

/-- The body decoders `ParseMessage` dispatches to whose implementations
are not among the provided sources (`GetConfigReply`, `DescriptionReply`,
`PortStatus`, `FlowRemoved`, and the `Port` decoder used by
`FeaturesReply`); they are taken as parameters and quantified over in the
theorems. -/
structure BodyDecoders where
  getConfigReply : List Nat → DecodeResult (List Nat)
  descriptionReply : List Nat → DecodeResult (List Nat)
  portStatus : List Nat → DecodeResult (List Nat)
  flowRemoved : List Nat → DecodeResult (List Nat)
  port : List Nat → DecodeResult PortData

/-- `of10.ParseMessage`: decode the common header, dispatch on the type
discriminator (reading the statistics sub-type from `data[8:10]` for
statistics replies), and run the selected body decoder on the full buffer.
Unknown types and unknown statistics sub-types yield `UnsupportedMessage`. -/
def ParseMessage (D : BodyDecoders) (data : List Nat) : DecodeResult Incoming :=
  match Message.UnmarshalBinary data with
  | .error e => .error e
  | .oob => .oob
  | .ok msg =>
    if msg.Type = OFPT_FEATURES_REPLY then
      (FeaturesReply.UnmarshalBinary D.port data).mapOk Incoming.featuresReply
    else if msg.Type = OFPT_GET_CONFIG_REPLY then
      (D.getConfigReply data).mapOk Incoming.getConfigReply
    else if msg.Type = OFPT_STATS_REPLY then
      match slice? data 8 10 with
      | none => .oob
      | some w =>
        if beNat w = OFPST_DESC then
          (D.descriptionReply data).mapOk Incoming.descriptionReply
        else .error Err.unsupportedMessage
    else if msg.Type = OFPT_PORT_STATUS then
      (D.portStatus data).mapOk Incoming.portStatus
    else if msg.Type = OFPT_FLOW_REMOVED then
      (D.flowRemoved data).mapOk Incoming.flowRemoved
    else .error Err.unsupportedMessage

/-- A concrete instantiation of the missing body decoders, used only to
evaluate the parser on concrete buffers in witnesses: each body decoder
succeeds with the raw buffer, the port decoder succeeds with its window. -/
def trivialDecoders : BodyDecoders :=
  { getConfigReply := fun b => .ok b,
    descriptionReply := fun b => .ok b,
    portStatus := fun b => .ok b,
    flowRemoved := fun b => .ok b,
    port := fun b => .ok b }

/-! ## Discovery engine: canceller table (northbound/app/discovery) -/

/-- One ARP-sender goroutine started by `addARPSender`: its cancellation
context is embedded as a `cancelled` flag (a task is live until its
`context.CancelFunc` is invoked; the goroutine then exits at its next
loop-iteration check). -/
structure Task where
  id : Nat
  device : String
  cancelled : Bool
  deriving DecidableEq, Repr

/-- The discovery `processor`'s mutable state: the set of started tasks and
the canceller table `map[string]context.CancelFunc` keyed by device ID,
embedded as an association list from device ID to task id.  `nextID`
supplies fresh task identities. -/
structure DiscoveryState where
  tasks : List Task
  canceller : List (String × Nat)
  nextID : Nat
  deriving DecidableEq, Repr

/-- `New(db)`: empty canceller table, no tasks. -/
def newProcessor : DiscoveryState := { tasks := [], canceller := [], nextID := 0 }

/-- Go map lookup `r.canceller[deviceID]`. -/
def lookupCanceller (c : List (String × Nat)) (d : String) : Option Nat :=
  (c.find? (fun e => e.1 == d)).map Prod.snd

/-- Invoking the `context.CancelFunc` stored for task id `tid`. -/
def cancelTask (ts : List Task) (tid : Nat) : List Task :=
  ts.map (fun t => if t.id = tid then { t with cancelled := true } else t)

/-- `processor.removeARPSender`: look up the canceller entry for the
device; if present, invoke the cancel function and delete the entry. -/
def removeARPSender (s : DiscoveryState) (d : String) : DiscoveryState :=
  match lookupCanceller s.canceller d with
  | none => s
  | some tid =>
    { s with tasks := cancelTask s.tasks tid,
             canceller := s.canceller.filter (fun e => !(e.1 == d)) }

/-- Go map assignment `r.canceller[device.ID()] = cancel`: overwrite the
entry if the key is present, insert otherwise. -/
def insertCanceller (c : List (String × Nat)) (d : String) (tid : Nat) :
    List (String × Nat) :=
  if c.any (fun e => e.1 == d) then c.map (fun e => if e.1 == d then (d, tid) else e)
  else c ++ [(d, tid)]

/-- `processor.addARPSender`: start a new ARP-sender task for the device
and record its cancel function in the canceller table. -/
def addARPSender (s : DiscoveryState) (d : String) : DiscoveryState :=
  { tasks := s.tasks ++ [{ id := s.nextID, device := d, cancelled := false }],
    canceller := insertCanceller s.canceller d s.nextID,
    nextID := s.nextID + 1 }

/-- `processor.OnDeviceUp`: first `removeARPSender(device.ID())`, then
`addARPSender(device)` (the event is afterwards propagated down the
pipeline, which does not touch this state). -/
def OnDeviceUp (s : DiscoveryState) (d : String) : DiscoveryState :=
  addARPSender (removeARPSender s d) d

/-- The live (not yet cancelled) probing tasks for device `d`. -/
def liveTasks (s : DiscoveryState) (d : String) : List Task :=
  s.tasks.filter (fun t => t.device == d && !t.cancelled)

/-- The canceller-table entries recorded for device `d`. -/
def cancellerEntries (s : DiscoveryState) (d : String) : List (String × Nat) :=
  s.canceller.filter (fun e => e.1 == d)

/-- Well-formedness of the discovery state: task identities are distinct
and below `nextID`, and every live task is registered in the canceller
table under its device ID. -/
def Inv (s : DiscoveryState) : Prop :=
  (s.tasks.map Task.id).Nodup ∧
  (∀ t ∈ s.tasks, t.id < s.nextID) ∧
  (∀ t ∈ s.tasks, t.cancelled = false → lookupCanceller s.canceller t.device = some t.id)

instance (s : DiscoveryState) : Decidable (Inv s) := by
  unfold Inv; infer_instance

/-! ## Discovery engine: packet handling (northbound/app/discovery) -/

/-- The engine's fixed, locally administered probe-source hardware address
(`myMAC`). -/
def myMAC : List Nat := [0x06, 0xff, 0x29, 0x34, 0x82, 0x87]

/-- The fields of a decoded `protocol.ARP` packet that `OnPacketIn` reads. -/
structure ARP where
  operation : Nat
  SHA : List Nat
  SPA : List Nat
  THA : List Nat
  TPA : List Nat
  deriving DecidableEq, Repr

/-- The fields of a `protocol.Ethernet` frame that `OnPacketIn` reads (the
Go field `Type` is embedded as `etherType`). -/
structure Ethernet where
  etherType : Nat
  srcMAC : List Nat
  dstMAC : List Nat
  payload : List Nat
  deriving DecidableEq, Repr

/-- The ingress `network.Port` as seen by `OnPacketIn`:
`ingress.Device().ID()` and `ingress.Number()`. -/
structure PortRef where
  deviceID : String
  number : Nat
  deriving DecidableEq, Repr

/-- A device returned by `finder.Devices()`: its ID and whether its
`RemoveFlowByMAC` call fails. -/
structure DeviceRef where
  id : String
  removeFails : Bool
  deriving DecidableEq, Repr

/-- The external collaborators of `OnPacketIn`: the finder's device list
and the result of `db.UpdateHostLocation` (`none` embeds a store error). -/
structure Env where
  devices : List DeviceRef
  updateResult : Option Bool
  deriving DecidableEq, Repr

/-- The error outcomes `OnPacketIn` can return. -/
inductive DiscoveryError where
  | arpError
  | invalidDeviceID
  | dbError
  deriving DecidableEq, Repr

/-- Observable behaviour of one `OnPacketIn` call: the
`db.UpdateHostLocation` calls made (arguments `(mac, ip, swDPID,
portNum)`), the `RemoveFlowByMAC` attempts made (device ID and MAC), the
frame forwarded to the next pipeline link via `BaseProcessor.OnPacketIn`
(if any), and the returned error (if any). -/
structure PacketInEffects where
  updateCalls : List (List Nat × List Nat × Nat × Nat)
  removeCalls : List (String × List Nat)
  forwardedTo : Option (PortRef × Ethernet)
  ret : Option DiscoveryError
  deriving DecidableEq, Repr

/-- `strconv.ParseUint(s, 10, 64)`: accepts a non-empty all-digit string
whose value fits in 64 bits; no signs, no other characters. -/
def parseUintDec64 (s : String) : Option Nat :=
  let cs := s.toList
  if cs.isEmpty then none
  else if cs.all (fun c => c.isDigit) then
    let v := cs.foldl (fun acc c => acc * 10 + (c.toNat - 48)) 0
    if v < 2 ^ 64 then some v else none
  else none

/-- The flow-removal fan-out loop of `OnPacketIn`: one `RemoveFlowByMAC`
attempt per device from `finder.Devices()`, in order.  A failing attempt is
logged and the loop continues, so both branches proceed to the remaining
devices. -/
def removeFlowsLoop : List DeviceRef → List Nat → List (String × List Nat)
  | [], _ => []
  | d :: rest, mac =>
    if d.removeFails then (d.id, mac) :: removeFlowsLoop rest mac
    else (d.id, mac) :: removeFlowsLoop rest mac

/-- `processor.OnPacketIn`, parameterized by the `protocol.ARP` decoder
(not among the provided sources; `none` embeds its decode error): forward
non-ARP frames (type ≠ 0x0806) and non-reply ARP packets (operation ≠ 2)
unmodified; drop replies whose SHA differs from `myMAC`; otherwise parse
the ingress device ID as a decimal 64-bit integer, update the host
location keyed by THA/TPA, and on a confirmed change remove flows for that
MAC from every known device. -/
def OnPacketIn (parseARP : List Nat → Option ARP) (env : Env) (ingress : PortRef)
    (eth : Ethernet) : PacketInEffects :=
  if eth.etherType ≠ 0x0806 then
    { updateCalls := [], removeCalls := [], forwardedTo := some (ingress, eth), ret := none }
  else
    match parseARP eth.payload with
    | none =>
      { updateCalls := [], removeCalls := [], forwardedTo := none,
        ret := some DiscoveryError.arpError }
    | some arp =>
      if arp.operation ≠ 2 then
        { updateCalls := [], removeCalls := [], forwardedTo := some (ingress, eth),
          ret := none }
      else if arp.SHA ≠ myMAC then
        { updateCalls := [], removeCalls := [], forwardedTo := none, ret := none }
      else
        match parseUintDec64 ingress.deviceID with
        | none =>
          { updateCalls := [], removeCalls := [], forwardedTo := none,
            ret := some DiscoveryError.invalidDeviceID }
        | some swDPID =>
          let call := (arp.THA, arp.TPA, swDPID, ingress.number % 65536)
          match env.updateResult with
          | none =>
            { updateCalls := [call], removeCalls := [], forwardedTo := none,
              ret := some DiscoveryError.dbError }
          | some updated =>
            if updated then
              { updateCalls := [call], removeCalls := removeFlowsLoop env.devices arp.THA,
                forwardedTo := none, ret := none }
            else
              { updateCalls := [call], removeCalls := [], forwardedTo := none, ret := none }

/-! ## Sample values used to evaluate the model on concrete inputs -/

/-- The spec §8 scenario buffer: version 1, type features-reply,
length 32, xid 1, followed by 24 bytes of feature fields and zero port
bytes. -/
def sampleFeatures32 : List Nat :=
  [1, 6, 0, 32, 0, 0, 0, 1] ++ List.replicate 24 0

/-- A foreign ARP reply: reply operation, but SHA differs from `myMAC`. -/
def sampleForeignARP : ARP :=
  { operation := 2, SHA := [1, 2, 3, 4, 5, 6], SPA := [10, 0, 0, 1],
    THA := [2, 2, 2, 2, 2, 2], TPA := [10, 0, 0, 2] }

/-- A verified ARP reply: reply operation and SHA equal to `myMAC`. -/
def sampleProbeReplyARP : ARP :=
  { operation := 2, SHA := [0x06, 0xff, 0x29, 0x34, 0x82, 0x87], SPA := [10, 0, 0, 1],
    THA := [2, 2, 2, 2, 2, 2], TPA := [10, 0, 0, 2] }

/-- A sample ingress port whose device ID parses as the decimal number 7. -/
def samplePort : PortRef := { deviceID := "7", number := 3 }

/-- A sample ARP-carrying Ethernet frame. -/
def sampleEth : Ethernet :=
  { etherType := 0x0806, srcMAC := [1, 2, 3, 4, 5, 6], dstMAC := [9, 9, 9, 9, 9, 9],
    payload := [0, 1] }

/-- A non-ARP Ethernet frame (IPv4 ethertype). -/
def sampleEthIPv4 : Ethernet :=
  { etherType := 0x0800, srcMAC := [1, 2, 3, 4, 5, 6], dstMAC := [9, 9, 9, 9, 9, 9],
    payload := [] }

/-- A sample environment: two devices, one of which fails flow removal,
and a store reporting `updated = true`. -/
def sampleEnv : Env :=
  { devices := [{ id := "7", removeFails := false }, { id := "9", removeFails := true }],
    updateResult := some true }

end Cherry

namespace Cherry

/-! ## Claims C7 and C8: MAC setter validation -/

/-- Claim C7: for every nil input or input shorter than 6 bytes, `SetSrcMAC`
and `SetDstMAC` fail with an invalid-address error and leave the stored
field unchanged — the corresponding getter still reports `present = false`
if the field was never set, or still returns the previously stored value if
it was; a failed set never overwrites. -/
theorem setMAC_invalid_input_preserves_state (r : BaseAction) (mac : Option (List Nat))
    (h : mac = none ∨ ∃ m, mac = some m ∧ m.length < 6) :
    (r.SetSrcMAC mac).2 = some Err.invalidAddress ∧ (r.SetSrcMAC mac).1 = r ∧
    (r.SetSrcMAC mac).1.SrcMAC = r.SrcMAC ∧
    (r.SetDstMAC mac).2 = some Err.invalidAddress ∧ (r.SetDstMAC mac).1 = r ∧
    (r.SetDstMAC mac).1.DstMAC = r.DstMAC := by
  rcases h with h | ⟨m, rfl, hm⟩
  · subst h
    simp [BaseAction.SetSrcMAC, BaseAction.SetDstMAC]
  · simp [BaseAction.SetSrcMAC, BaseAction.SetDstMAC, if_pos hm]

theorem setMAC_invalid_input_preserves_state_witness :
    (NewBaseAction.SetSrcMAC none).2 = some Err.invalidAddress ∧
    (NewBaseAction.SetSrcMAC none).1 = NewBaseAction ∧
    (NewBaseAction.SetSrcMAC none).1.SrcMAC = NewBaseAction.SrcMAC ∧
    (NewBaseAction.SetDstMAC none).2 = some Err.invalidAddress ∧
    (NewBaseAction.SetDstMAC none).1 = NewBaseAction ∧
    (NewBaseAction.SetDstMAC none).1.DstMAC = NewBaseAction.DstMAC :=
  setMAC_invalid_input_preserves_state NewBaseAction none (Or.inl rfl)

/-- Claim C8 counterexample: the claim says any input whose length is not
exactly 6 bytes is rejected, but a 7-byte address is accepted without error
by both setters. -/
theorem setMAC_seven_byte_accepted :
    ([1, 2, 3, 4, 5, 6, 7] : List Nat).length ≠ 6 ∧
    (NewBaseAction.SetSrcMAC (some [1, 2, 3, 4, 5, 6, 7])).2 = none ∧
    (NewBaseAction.SetDstMAC (some [1, 2, 3, 4, 5, 6, 7])).2 = none :=
  ⟨by decide, rfl, rfl⟩

/-! ## Codec helper lemmas -/

theorem DecodeResult.mapOk_ne_oob {α β : Type} (f : α → β) {r : DecodeResult α}
    (h : r ≠ .oob) : r.mapOk f ≠ .oob := by
  cases r <;> simp [DecodeResult.mapOk] at h ⊢

theorem Header.unmarshal_ne_oob (data : List Nat) :
    Header.UnmarshalBinary data ≠ .oob := by
  unfold Header.UnmarshalBinary
  dsimp only
  split
  · simp
  · split <;> simp

theorem Header.unmarshal_ok {data : List Nat} {hdr : Header}
    (h : Header.UnmarshalBinary data = .ok hdr) :
    8 ≤ hdr.length ∧ hdr.length ≤ data.length ∧ hdr.length = headerDeclaredLength data ∧
    hdr.type = data.getD 1 0 ∧ 8 ≤ data.length := by
  unfold Header.UnmarshalBinary at h
  dsimp only at h
  split at h
  · simp at h
  next h1 =>
    split at h
    · simp at h
    next h2 =>
      simp only [DecodeResult.ok.injEq] at h
      subst h
      push_neg at h2
      refine ⟨h2.1, h2.2, rfl, rfl, by omega⟩

theorem featuresFields?_eq {data : List Nat} (h : 32 ≤ data.length) :
    featuresFields? data =
      some (beNat ((data.drop 8).take 8), beNat ((data.drop 16).take 4),
        data.getD 20 0, beNat ((data.drop 24).take 4), beNat ((data.drop 28).take 4)) := by
  cases hg : data[20]? with
  | none =>
    rw [List.getElem?_eq_none_iff] at hg
    omega
  | some v =>
    have h20 : data.get? 20 = some v := by
      rw [List.get?_eq_getElem?]; exact hg
    have hgetD : data.getD 20 0 = v := by
      rw [List.getD_eq_getElem?_getD, hg]; rfl
    unfold featuresFields? slice?
    rw [if_pos (by omega : 8 ≤ 16 ∧ 16 ≤ data.length),
      if_pos (by omega : 16 ≤ 20 ∧ 20 ≤ data.length),
      if_pos (by omega : 24 ≤ 28 ∧ 28 ≤ data.length),
      if_pos (by omega : 28 ≤ 32 ∧ 32 ≤ data.length)]
    simp [h20, hg, hgetD, Option.bind]

theorem decodePortsAux_ok (f : List Nat → PortData) (data : List Nat) :
    ∀ (k i : Nat), 32 + (i + k) * 48 ≤ data.length →
      decodePortsAux (fun b => .ok (f b)) data i k =
        .ok ((List.range k).map (fun j => f ((data.drop (32 + (i + j) * 48)).take 48))) := by
  intro k
  induction k with
  | zero => intro i _; simp [decodePortsAux]
  | succ k ih =>
    intro i h
    have hlen : (data.drop (32 + i * 48)).length = data.length - (32 + i * 48) :=
      List.length_drop _ _
    have h1 : slice? data (32 + i * 48) data.length = some (data.drop (32 + i * 48)) := by
      unfold slice?
      rw [if_pos ⟨by omega, le_refl _⟩]
      rw [List.take_of_length_le (by omega)]
    have h2 : slice? (data.drop (32 + i * 48)) 0 48 =
        some ((data.drop (32 + i * 48)).take 48) := by
      unfold slice?
      rw [if_pos ⟨Nat.zero_le _, by omega⟩]
      simp
    have harg : ∀ j : Nat, 32 + (i + 1 + j) * 48 = 32 + (i + (j + 1)) * 48 := by
      intro j; ring
    simp only [decodePortsAux, h1, h2, ih (i + 1) (by omega)]
    simp only [DecodeResult.mapOk, DecodeResult.ok.injEq, List.range_succ_eq_map,
      List.map_cons, List.map_map, Nat.add_zero, List.cons.injEq]
    refine ⟨trivial, ?_⟩
    apply List.map_congr_left
    intro j _
    simp [Function.comp, harg]

theorem decodePortsAux_ne_oob (pd : List Nat → DecodeResult PortData)
    (hpd : ∀ b, pd b ≠ .oob) (data : List Nat) :
    ∀ (k i : Nat), 32 + (i + k) * 48 ≤ data.length →
      decodePortsAux pd data i k ≠ .oob := by
  intro k
  induction k with
  | zero => intro i _; simp [decodePortsAux]
  | succ k ih =>
    intro i h
    have hlen : (data.drop (32 + i * 48)).length = data.length - (32 + i * 48) :=
      List.length_drop _ _
    have h1 : slice? data (32 + i * 48) data.length = some (data.drop (32 + i * 48)) := by
      unfold slice?
      rw [if_pos ⟨by omega, le_refl _⟩]
      rw [List.take_of_length_le (by omega)]
    have h2 : slice? (data.drop (32 + i * 48)) 0 48 =
        some ((data.drop (32 + i * 48)).take 48) := by
      unfold slice?
      rw [if_pos ⟨Nat.zero_le _, by omega⟩]
      simp
    simp only [decodePortsAux, h1, h2]
    cases hw : pd ((data.drop (32 + i * 48)).take 48) with
    | ok p => exact DecodeResult.mapOk_ne_oob _ (ih (i + 1) (by omega))
    | error e => simp
    | oob => exact absurd hw (hpd _)

theorem featuresReply_unmarshal_ok {data : List Nat} {hdr : Header}
    (f : List Nat → PortData) (h : Header.UnmarshalBinary data = .ok hdr)
    (h32 : 32 ≤ hdr.length) :
    ∃ fr, FeaturesReply.UnmarshalBinary (fun b => .ok (f b)) data = .ok fr ∧
      fr.header = hdr ∧
      fr.Ports = (List.range ((hdr.length - 32) / 48)).map
        (fun j => f ((data.drop (32 + j * 48)).take 48)) := by
  obtain ⟨h8, hle, -, -, -⟩ := Header.unmarshal_ok h
  have hcond : ¬(hdr.length < 32 ∨ data.length < hdr.length) := by omega
  have hf := @featuresFields?_eq data (by omega)
  have hports : 32 + (0 + (hdr.length - 32) / 48) * 48 ≤ data.length := by
    have := Nat.div_mul_le_self (hdr.length - 32) 48
    omega
  unfold FeaturesReply.UnmarshalBinary
  rw [h]
  dsimp only
  rw [if_neg hcond, hf]
  dsimp only
  by_cases hn : (hdr.length - 32) / 48 = 0
  · rw [if_pos hn, hn]
    refine ⟨_, rfl, rfl, by simp⟩
  · rw [if_neg hn, decodePortsAux_ok f data _ 0 hports]
    refine ⟨_, rfl, rfl, ?_⟩
    simp only [DecodeResult.mapOk, Nat.zero_add]

/-! ## Claim C1: short buffers are rejected without out-of-bounds access -/

/-- Claim C1: for every buffer shorter than the length declared in the
header (or shorter than the 8-byte minimum), `ParseMessage` returns
`InvalidPacketLength`, for any body decoders; and the `FeaturesReply`
decoder, for any input buffer and any port decoder that itself stays in
bounds, never performs an out-of-bounds access (`oob` is the embedding of
a Go index-out-of-range panic). -/
theorem parseMessage_short_buffer_safe (D : BodyDecoders)
    (pd : List Nat → DecodeResult PortData) (data : List Nat) :
    (data.length < 8 ∨ data.length < headerDeclaredLength data →
      ParseMessage D data = .error Err.invalidPacketLength) ∧
    ((∀ b, pd b ≠ .oob) → FeaturesReply.UnmarshalBinary pd data ≠ .oob) := by
  constructor
  · intro h
    have hmsg : Message.UnmarshalBinary data = .error Err.invalidPacketLength := by
      unfold Message.UnmarshalBinary Header.UnmarshalBinary
      by_cases h8 : data.length < 8
      · rw [if_pos h8]; rfl
      · rw [if_neg h8, if_pos (by omega)]; rfl
    unfold ParseMessage
    rw [hmsg]
  · intro hpd
    cases hh : Header.UnmarshalBinary data with
    | error e => unfold FeaturesReply.UnmarshalBinary; rw [hh]; simp
    | oob => exact absurd hh (Header.unmarshal_ne_oob data)
    | ok hdr =>
      obtain ⟨h8, hle, -, -, -⟩ := Header.unmarshal_ok hh
      unfold FeaturesReply.UnmarshalBinary
      rw [hh]
      dsimp only
      by_cases hcond : hdr.length < 32 ∨ data.length < hdr.length
      · rw [if_pos hcond]; simp
      · rw [if_neg hcond, @featuresFields?_eq data (by omega)]
        dsimp only
        by_cases hn : (hdr.length - 32) / 48 = 0
        · rw [if_pos hn]; simp
        · rw [if_neg hn]
          refine DecodeResult.mapOk_ne_oob _ ?_
          refine decodePortsAux_ne_oob pd hpd data _ 0 ?_
          have := Nat.div_mul_le_self (hdr.length - 32) 48
          omega

theorem parseMessage_short_buffer_safe_witness :
    ParseMessage trivialDecoders [1, 6, 0, 200] = .error Err.invalidPacketLength ∧
    FeaturesReply.UnmarshalBinary trivialDecoders.port [1, 6, 0, 200] ≠ .oob :=
  ⟨(parseMessage_short_buffer_safe trivialDecoders trivialDecoders.port [1, 6, 0, 200]).1
      (Or.inl (by decide)),
   (parseMessage_short_buffer_safe trivialDecoders trivialDecoders.port [1, 6, 0, 200]).2
      (fun b h => nomatch h)⟩

/-! ## Claim C6: FeaturesReply port-count arithmetic -/

/-- Claim C6: Switch-Features decode yields exactly
`(header.length - 32) / 48` port records, decoded in wire order from
consecutive 48-byte windows starting at offset 32 (so header length 32
yields the empty port list and length `32 + 48 k` yields exactly `k`
ports), and a header length below 32 is a hard decode failure returning
`InvalidPacketLength`. -/
theorem featuresReply_port_count (f : List Nat → PortData) (data : List Nat) (hdr : Header)
    (h : Header.UnmarshalBinary data = .ok hdr) :
    (hdr.length < 32 →
      FeaturesReply.UnmarshalBinary (fun b => .ok (f b)) data =
        .error Err.invalidPacketLength) ∧
    (32 ≤ hdr.length →
      ∃ fr, FeaturesReply.UnmarshalBinary (fun b => .ok (f b)) data = .ok fr ∧
        fr.Ports.length = (hdr.length - 32) / 48 ∧
        fr.Ports = (List.range ((hdr.length - 32) / 48)).map
          (fun j => f ((data.drop (32 + j * 48)).take 48))) := by
  constructor
  · intro h32
    unfold FeaturesReply.UnmarshalBinary
    rw [h]
    dsimp only
    rw [if_pos (Or.inl h32)]
  · intro h32
    obtain ⟨fr, hfr, -, hports⟩ := featuresReply_unmarshal_ok f h h32
    exact ⟨fr, hfr, by simp [hports], hports⟩

theorem featuresReply_port_count_witness :
    ∃ fr, FeaturesReply.UnmarshalBinary (fun b => .ok (id b)) sampleFeatures32 = .ok fr ∧
      fr.Ports.length = (32 - 32) / 48 ∧
      fr.Ports = (List.range ((32 - 32) / 48)).map
        (fun j => id ((sampleFeatures32.drop (32 + j * 48)).take 48)) :=
  (featuresReply_port_count id sampleFeatures32
    { version := 1, type := 6, length := 32, xid := 1 } (by decide)).2 (by decide)

/-! ## Claim C9: unknown types and sub-types -/

/-- Claim C9: for every buffer whose header decodes successfully but whose
message type is not one of the five registered types, or whose
statistics-reply sub-type (read from bytes 8-10) is unknown, `ParseMessage`
returns `UnsupportedMessage` and no typed message, for any body decoders. -/
theorem parseMessage_unsupported_type (D : BodyDecoders) (data : List Nat) (msg : Message)
    (h : Message.UnmarshalBinary data = .ok msg)
    (hu : msg.Type ∉ [OFPT_FEATURES_REPLY, OFPT_GET_CONFIG_REPLY, OFPT_STATS_REPLY,
        OFPT_PORT_STATUS, OFPT_FLOW_REMOVED] ∨
      (msg.Type = OFPT_STATS_REPLY ∧ 10 ≤ data.length ∧
        beNat ((data.drop 8).take 2) ≠ OFPST_DESC)) :
    ParseMessage D data = .error Err.unsupportedMessage := by
  unfold ParseMessage
  rw [h]
  dsimp only
  rcases hu with hu | ⟨ht, hlen, hsub⟩
  · simp only [List.mem_cons, List.not_mem_nil, or_false, not_or] at hu
    obtain ⟨h1, h2, h3, h4, h5⟩ := hu
    rw [if_neg h1, if_neg h2, if_neg h3, if_neg h4, if_neg h5]
  · have h1 : msg.Type ≠ OFPT_FEATURES_REPLY := by
      rw [ht]; unfold OFPT_STATS_REPLY OFPT_FEATURES_REPLY; omega
    have h2 : msg.Type ≠ OFPT_GET_CONFIG_REPLY := by
      rw [ht]; unfold OFPT_STATS_REPLY OFPT_GET_CONFIG_REPLY; omega
    have hs : slice? data 8 10 = some ((data.drop 8).take 2) := by
      unfold slice?
      rw [if_pos ⟨by omega, hlen⟩]
    rw [if_neg h1, if_neg h2, if_pos ht, hs]
    dsimp only
    rw [if_neg hsub]

theorem parseMessage_unsupported_type_witness :
    ParseMessage trivialDecoders [1, 99, 0, 8, 0, 0, 0, 0] = .error Err.unsupportedMessage :=
  parseMessage_unsupported_type trivialDecoders [1, 99, 0, 8, 0, 0, 0, 0]
    { header := { version := 1, type := 99, length := 8, xid := 0 } }
    (by decide) (Or.inl (by decide))

/-- Claim C8 (amended): `SetSrcMAC` and `SetDstMAC` reject exactly the nil
inputs and the inputs shorter than 6 bytes with an invalid-address error,
and accept every input of length at least 6 (not only length exactly 6). -/
theorem setMAC_rejects_iff_short (r : BaseAction) (mac : Option (List Nat)) :
    ((r.SetSrcMAC mac).2 = some Err.invalidAddress ↔
      mac = none ∨ ∃ m, mac = some m ∧ m.length < 6) ∧
    ((r.SetSrcMAC mac).2 = none ↔ ∃ m, mac = some m ∧ 6 ≤ m.length) ∧
    ((r.SetDstMAC mac).2 = some Err.invalidAddress ↔
      mac = none ∨ ∃ m, mac = some m ∧ m.length < 6) ∧
    ((r.SetDstMAC mac).2 = none ↔ ∃ m, mac = some m ∧ 6 ≤ m.length) := by
  cases mac with
  | none => simp [BaseAction.SetSrcMAC, BaseAction.SetDstMAC]
  | some m =>
    by_cases hm : m.length < 6
    · simp only [BaseAction.SetSrcMAC, BaseAction.SetDstMAC, if_pos hm]
      refine ⟨?_, ?_, ?_, ?_⟩ <;> simp <;> omega
    · simp only [BaseAction.SetSrcMAC, BaseAction.SetDstMAC, if_neg hm]
      refine ⟨?_, ?_, ?_, ?_⟩ <;> simp <;> omega

/-! ## Packet-handling helper lemmas -/

theorem removeFlowsLoop_eq_map (devices : List DeviceRef) (mac : List Nat) :
    removeFlowsLoop devices mac = devices.map (fun d => (d.id, mac)) := by
  induction devices with
  | nil => rfl
  | cons d rest ih =>
    by_cases hd : d.removeFails <;> simp [removeFlowsLoop, hd, ih]

/-- Reduction of `OnPacketIn` on a verified ARP reply (operation 2, SHA
equal to `myMAC`, parsable device ID): the remaining behaviour depends only
on the store's answer. -/
theorem onPacketIn_verified (parseARP : List Nat → Option ARP) (env : Env)
    (ingress : PortRef) (eth : Ethernet) (arp : ARP) (dpid : Nat)
    (htype : eth.etherType = 0x0806)
    (hparse : parseARP eth.payload = some arp)
    (hop : arp.operation = 2)
    (hsha : arp.SHA = myMAC)
    (hdpid : parseUintDec64 ingress.deviceID = some dpid) :
    OnPacketIn parseARP env ingress eth =
      match env.updateResult with
      | none =>
        { updateCalls := [(arp.THA, arp.TPA, dpid, ingress.number % 65536)],
          removeCalls := [], forwardedTo := none, ret := some DiscoveryError.dbError }
      | some true =>
        { updateCalls := [(arp.THA, arp.TPA, dpid, ingress.number % 65536)],
          removeCalls := removeFlowsLoop env.devices arp.THA,
          forwardedTo := none, ret := none }
      | some false =>
        { updateCalls := [(arp.THA, arp.TPA, dpid, ingress.number % 65536)],
          removeCalls := [], forwardedTo := none, ret := none } := by
  unfold OnPacketIn
  rw [if_neg (by simp [htype]), hparse]
  dsimp only
  rw [if_neg (by simp [hop]), if_neg (by simp [hsha]), hdpid]
  dsimp only
  cases env.updateResult with
  | none => rfl
  | some b => cases b <;> rfl

/-! ## Claim C3: foreign ARP replies are dropped -/

/-- Claim C3: an incoming ARP reply whose sender hardware address differs
from the engine's fixed probe-source MAC is dropped: no
`UpdateHostLocation` call is made, the packet is not forwarded to the next
pipeline link, and `OnPacketIn` returns without error. -/
theorem onPacketIn_foreign_reply_dropped (parseARP : List Nat → Option ARP) (env : Env)
    (ingress : PortRef) (eth : Ethernet) (arp : ARP)
    (htype : eth.etherType = 0x0806)
    (hparse : parseARP eth.payload = some arp)
    (hop : arp.operation = 2)
    (hsha : arp.SHA ≠ myMAC) :
    OnPacketIn parseARP env ingress eth =
      { updateCalls := [], removeCalls := [], forwardedTo := none, ret := none } := by
  unfold OnPacketIn
  rw [if_neg (by simp [htype]), hparse]
  dsimp only
  rw [if_neg (by simp [hop]), if_pos hsha]

theorem onPacketIn_foreign_reply_dropped_witness :
    OnPacketIn (fun _ => some sampleForeignARP) sampleEnv samplePort sampleEth =
      { updateCalls := [], removeCalls := [], forwardedTo := none, ret := none } :=
  onPacketIn_foreign_reply_dropped (fun _ => some sampleForeignARP) sampleEnv
    samplePort sampleEth sampleForeignARP rfl rfl rfl (by decide)

/-! ## Claim C4: confirmed relocation removes flows on every device -/

/-- Claim C4: when the store reports `updated = true` for a verified
ARP-reply location update, `OnPacketIn` makes exactly one `RemoveFlowByMAC`
attempt on every device returned by the finder, in order, and returns
without error — in particular the per-device failure flags (quantified over
here) never prevent the attempts on the remaining devices. -/
theorem onPacketIn_updated_removes_on_all_devices (parseARP : List Nat → Option ARP)
    (env : Env) (ingress : PortRef) (eth : Ethernet) (arp : ARP) (dpid : Nat)
    (htype : eth.etherType = 0x0806)
    (hparse : parseARP eth.payload = some arp)
    (hop : arp.operation = 2)
    (hsha : arp.SHA = myMAC)
    (hdpid : parseUintDec64 ingress.deviceID = some dpid)
    (hupd : env.updateResult = some true) :
    (OnPacketIn parseARP env ingress eth).removeCalls =
      env.devices.map (fun d => (d.id, arp.THA)) ∧
    (OnPacketIn parseARP env ingress eth).ret = none := by
  rw [onPacketIn_verified parseARP env ingress eth arp dpid htype hparse hop hsha hdpid,
    hupd]
  exact ⟨removeFlowsLoop_eq_map env.devices arp.THA, rfl⟩

theorem onPacketIn_updated_removes_on_all_devices_witness :
    (OnPacketIn (fun _ => some sampleProbeReplyARP) sampleEnv samplePort
        sampleEth).removeCalls =
      sampleEnv.devices.map (fun d => (d.id, sampleProbeReplyARP.THA)) ∧
    (OnPacketIn (fun _ => some sampleProbeReplyARP) sampleEnv samplePort
        sampleEth).ret = none :=
  onPacketIn_updated_removes_on_all_devices (fun _ => some sampleProbeReplyARP)
    sampleEnv samplePort sampleEth sampleProbeReplyARP 7 rfl rfl rfl (by decide)
    (by decide) rfl

/-! ## Claim C5: everything that is not an ARP reply is forwarded -/

/-- Claim C5: every Ethernet frame that is not an ARP reply — frame type
not 0x0806, or ARP operation code not 2 — is forwarded unmodified to the
next pipeline link; and `OnPacketIn` consumes a frame (returns nil without
forwarding) only when the frame parsed as an ARP packet with operation 2. -/
theorem onPacketIn_forwards_non_reply (parseARP : List Nat → Option ARP) (env : Env)
    (ingress : PortRef) (eth : Ethernet) :
    ((eth.etherType ≠ 0x0806 ∨
        ∃ arp, parseARP eth.payload = some arp ∧ arp.operation ≠ 2) →
      (OnPacketIn parseARP env ingress eth).forwardedTo = some (ingress, eth)) ∧
    ((OnPacketIn parseARP env ingress eth).forwardedTo = none →
      (OnPacketIn parseARP env ingress eth).ret = none →
      ∃ arp, parseARP eth.payload = some arp ∧ arp.operation = 2) := by
  constructor
  · rintro (h | ⟨arp, hp, hop⟩)
    · unfold OnPacketIn
      rw [if_pos h]
    · unfold OnPacketIn
      by_cases ht : eth.etherType ≠ 0x0806
      · rw [if_pos ht]
      · rw [if_neg ht, hp]
        dsimp only
        rw [if_pos hop]
  · intro h1 h2
    by_cases ht : eth.etherType ≠ 0x0806
    · exfalso
      unfold OnPacketIn at h1
      rw [if_pos ht] at h1
      simp at h1
    · cases hp : parseARP eth.payload with
      | none =>
        exfalso
        unfold OnPacketIn at h2
        rw [if_neg ht, hp] at h2
        simp at h2
      | some arp =>
        refine ⟨arp, rfl, ?_⟩
        by_cases hop : arp.operation ≠ 2
        · exfalso
          unfold OnPacketIn at h1
          rw [if_neg ht, hp] at h1
          dsimp only at h1
          rw [if_pos hop] at h1
          simp at h1
        · exact not_not.mp hop

theorem onPacketIn_forwards_non_reply_witness :
    (OnPacketIn (fun _ => some sampleForeignARP) sampleEnv samplePort
        sampleEthIPv4).forwardedTo = some (samplePort, sampleEthIPv4) :=
  (onPacketIn_forwards_non_reply (fun _ => some sampleForeignARP) sampleEnv samplePort
    sampleEthIPv4).1 (Or.inl (by decide))

/-! ## Claim C10: the location update is keyed by the reply's target -/

/-- Claim C10: on a verified ARP reply, the host-location update passed to
the backing store is keyed by the reply's target hardware and protocol
addresses (THA, TPA) — not the sender's — together with the ingress port's
device datapath ID parsed as a decimal 64-bit integer and the ingress port
number (truncated to 16 bits as in the source), and exactly one such update
call is made whatever the store then answers. -/
theorem onPacketIn_update_keyed_by_target (parseARP : List Nat → Option ARP)
    (env : Env) (ingress : PortRef) (eth : Ethernet) (arp : ARP) (dpid : Nat)
    (htype : eth.etherType = 0x0806)
    (hparse : parseARP eth.payload = some arp)
    (hop : arp.operation = 2)
    (hsha : arp.SHA = myMAC)
    (hdpid : parseUintDec64 ingress.deviceID = some dpid) :
    (OnPacketIn parseARP env ingress eth).updateCalls =
      [(arp.THA, arp.TPA, dpid, ingress.number % 65536)] := by
  rw [onPacketIn_verified parseARP env ingress eth arp dpid htype hparse hop hsha hdpid]
  cases env.updateResult with
  | none => rfl
  | some b => cases b <;> rfl

theorem onPacketIn_update_keyed_by_target_witness :
    (OnPacketIn (fun _ => some sampleProbeReplyARP) sampleEnv samplePort
        sampleEth).updateCalls =
      [(sampleProbeReplyARP.THA, sampleProbeReplyARP.TPA, 7, samplePort.number % 65536)] :=
  onPacketIn_update_keyed_by_target (fun _ => some sampleProbeReplyARP) sampleEnv
    samplePort sampleEth sampleProbeReplyARP 7 rfl rfl rfl (by decide) (by decide)

/-! ## Canceller-table helper lemmas -/

theorem lookupCanceller_eq_none {c : List (String × Nat)} {d : String} :
    lookupCanceller c d = none ↔ ∀ e ∈ c, e.1 ≠ d := by
  unfold lookupCanceller
  rw [Option.map_eq_none', List.find?_eq_none]
  simp

theorem cancelTask_map_id (ts : List Task) (tid : Nat) :
    (cancelTask ts tid).map Task.id = ts.map Task.id := by
  unfold cancelTask
  rw [List.map_map]
  apply List.map_congr_left
  intro t _
  by_cases h : t.id = tid <;> simp [h]

theorem removeARPSender_nextID (s : DiscoveryState) (d : String) :
    (removeARPSender s d).nextID = s.nextID := by
  unfold removeARPSender
  cases lookupCanceller s.canceller d <;> rfl

theorem removeARPSender_map_id (s : DiscoveryState) (d : String) :
    (removeARPSender s d).tasks.map Task.id = s.tasks.map Task.id := by
  unfold removeARPSender
  cases lookupCanceller s.canceller d with
  | none => rfl
  | some tid => exact cancelTask_map_id s.tasks tid

theorem lookupCanceller_removeARPSender_self (s : DiscoveryState) (d : String) :
    lookupCanceller (removeARPSender s d).canceller d = none := by
  unfold removeARPSender
  cases hl : lookupCanceller s.canceller d with
  | none => exact hl
  | some tid =>
    rw [lookupCanceller_eq_none]
    intro e he
    have := (List.mem_filter.mp he).2
    simpa using this

theorem find?_filter_ne (c : List (String × Nat)) (d d' : String) (hne : d' ≠ d) :
    (c.filter (fun e => !(e.1 == d))).find? (fun e => e.1 == d') =
      c.find? (fun e => e.1 == d') := by
  induction c with
  | nil => rfl
  | cons x xs ih =>
    by_cases hx : x.1 = d
    · have hx' : x.1 ≠ d' := by rw [hx]; exact fun h => hne h.symm
      rw [List.filter_cons_of_neg (by simp [hx]),
        List.find?_cons_of_neg xs (by simp [hx']), ih]
    · rw [List.filter_cons_of_pos (by simp [hx])]
      by_cases hx' : x.1 = d'
      · rw [List.find?_cons_of_pos _ (by simp [hx']),
          List.find?_cons_of_pos _ (by simp [hx'])]
      · rw [List.find?_cons_of_neg _ (by simp [hx']),
          List.find?_cons_of_neg _ (by simp [hx']), ih]

theorem lookupCanceller_removeARPSender_ne (s : DiscoveryState) {d d' : String}
    (hne : d' ≠ d) :
    lookupCanceller (removeARPSender s d).canceller d' =
      lookupCanceller s.canceller d' := by
  unfold removeARPSender
  cases lookupCanceller s.canceller d with
  | none => rfl
  | some tid =>
    unfold lookupCanceller
    rw [find?_filter_ne s.canceller d d' hne]

theorem liveTasks_removeARPSender_self (s : DiscoveryState) (d : String) (h : Inv s) :
    liveTasks (removeARPSender s d) d = [] := by
  obtain ⟨-, -, h3⟩ := h
  unfold liveTasks removeARPSender
  cases hl : lookupCanceller s.canceller d with
  | none =>
    rw [List.filter_eq_nil_iff]
    intro t ht hpred
    simp only [Bool.and_eq_true, beq_iff_eq, Bool.not_eq_true'] at hpred
    have := h3 t ht hpred.2
    rw [hpred.1, hl] at this
    exact Option.noConfusion this
  | some tid =>
    rw [List.filter_eq_nil_iff]
    intro t' ht' hpred
    simp only [Bool.and_eq_true, beq_iff_eq, Bool.not_eq_true'] at hpred
    obtain ⟨t, ht, heq⟩ := List.mem_map.mp ht'
    by_cases hid : t.id = tid
    · rw [if_pos hid] at heq
      rw [← heq] at hpred
      exact Bool.noConfusion hpred.2
    · rw [if_neg hid] at heq
      subst heq
      have := h3 t ht hpred.2
      rw [hpred.1, hl] at this
      exact hid (Option.some.injEq _ _ ▸ this).symm

theorem live_mem_removeARPSender (s : DiscoveryState) (d : String) (h : Inv s) :
    ∀ t ∈ (removeARPSender s d).tasks, t.cancelled = false →
      t ∈ s.tasks ∧ t.device ≠ d := by
  intro t ht hlive
  have hdev : t.device ≠ d := by
    intro hdev
    have hmem : t ∈ liveTasks (removeARPSender s d) d := by
      rw [liveTasks]
      exact List.mem_filter.mpr ⟨ht, by simp [hdev, hlive]⟩
    rw [liveTasks_removeARPSender_self s d h] at hmem
    exact List.not_mem_nil t hmem
  refine ⟨?_, hdev⟩
  revert ht
  unfold removeARPSender
  cases hl : lookupCanceller s.canceller d with
  | none => exact id
  | some tid =>
    intro ht
    obtain ⟨t₀, ht₀, heq⟩ := List.mem_map.mp ht
    by_cases hid : t₀.id = tid
    · rw [if_pos hid] at heq
      rw [← heq] at hlive
      exact Bool.noConfusion hlive
    · rw [if_neg hid] at heq
      subst heq
      exact ht₀

theorem removeARPSender_id_lt (s : DiscoveryState) (d : String) (h : Inv s) :
    ∀ t ∈ (removeARPSender s d).tasks, t.id < s.nextID := by
  intro t ht
  have : t.id ∈ (removeARPSender s d).tasks.map Task.id := List.mem_map_of_mem _ ht
  rw [removeARPSender_map_id] at this
  obtain ⟨t₀, ht₀, hid⟩ := List.mem_map.mp this
  rw [← hid]
  exact h.2.1 t₀ ht₀

theorem insertCanceller_of_absent {c : List (String × Nat)} {d : String} (tid : Nat)
    (h : lookupCanceller c d = none) :
    insertCanceller c d tid = c ++ [(d, tid)] := by
  unfold insertCanceller
  rw [if_neg]
  rw [Bool.not_eq_true, List.any_eq_false]
  intro e he
  have := lookupCanceller_eq_none.mp h e he
  simpa using this

theorem lookupCanceller_append_self {c : List (String × Nat)} {d : String} (tid : Nat)
    (h : lookupCanceller c d = none) :
    lookupCanceller (c ++ [(d, tid)]) d = some tid := by
  unfold lookupCanceller at h ⊢
  rw [List.find?_append, Option.map_eq_none'.mp h]
  simp [List.find?_cons]

theorem lookupCanceller_append_ne {c : List (String × Nat)} {d d' : String} (tid : Nat)
    (hne : d' ≠ d) :
    lookupCanceller (c ++ [(d, tid)]) d' = lookupCanceller c d' := by
  unfold lookupCanceller
  rw [List.find?_append]
  have : List.find? (fun e => e.1 == d') [(d, tid)] = none := by
    rw [List.find?_eq_none]
    intro e he
    simp only [List.mem_singleton] at he
    subst he
    simp
    exact fun hc => hne hc.symm
  rw [this, Option.or_none]

/-- Summary of one `OnDeviceUp` step from a well-formed state: the
invariant is preserved, device `d` ends with exactly the freshly started
live task, and exactly one canceller-table entry pointing at it. -/
theorem onDeviceUp_spec (s : DiscoveryState) (d : String) (h : Inv s) :
    Inv (OnDeviceUp s d) ∧
    liveTasks (OnDeviceUp s d) d = [{ id := s.nextID, device := d, cancelled := false }] ∧
    cancellerEntries (OnDeviceUp s d) d = [(d, s.nextID)] := by
  have hnid := removeARPSender_nextID s d
  have hnone := lookupCanceller_removeARPSender_self s d
  have hins := @insertCanceller_of_absent (removeARPSender s d).canceller d
    (removeARPSender s d).nextID hnone
  have htasks : (OnDeviceUp s d).tasks =
      (removeARPSender s d).tasks ++
        [{ id := s.nextID, device := d, cancelled := false }] := by
    unfold OnDeviceUp addARPSender
    rw [hnid]
  have hcanc : (OnDeviceUp s d).canceller =
      (removeARPSender s d).canceller ++ [(d, s.nextID)] := by
    unfold OnDeviceUp addARPSender
    rw [hins, hnid]
  have hnext : (OnDeviceUp s d).nextID = s.nextID + 1 := by
    unfold OnDeviceUp addARPSender
    rw [hnid]
  refine ⟨⟨?_, ?_, ?_⟩, ?_, ?_⟩
  · -- distinct task identities
    rw [htasks, List.map_append, removeARPSender_map_id]
    rw [List.nodup_append]
    refine ⟨h.1, by simp, ?_⟩
    intro a ha hb
    simp only [List.map_cons, List.map_nil, List.mem_singleton] at hb
    obtain ⟨t₀, ht₀, hid⟩ := List.mem_map.mp ha
    have := h.2.1 t₀ ht₀
    omega
  · -- identities below nextID
    intro t ht
    rw [htasks] at ht
    rw [hnext]
    rcases List.mem_append.mp ht with ht | ht
    · have := removeARPSender_id_lt s d h t ht
      omega
    · simp only [List.mem_singleton] at ht
      subst ht
      exact Nat.lt_succ_self s.nextID
  · -- every live task is registered under its device
    intro t ht hlive
    rw [htasks] at ht
    rw [hcanc]
    rcases List.mem_append.mp ht with ht | ht
    · obtain ⟨hmem, hdev⟩ := live_mem_removeARPSender s d h t ht hlive
      rw [lookupCanceller_append_ne _ hdev,
        lookupCanceller_removeARPSender_ne s hdev]
      exact h.2.2 t hmem hlive
    · simp only [List.mem_singleton] at ht
      subst ht
      exact lookupCanceller_append_self _ hnone
  · -- exactly the fresh live task for d
    unfold liveTasks
    rw [htasks, List.filter_append]
    have h1 : (removeARPSender s d).tasks.filter
        (fun t => t.device == d && !t.cancelled) = [] := by
      have := liveTasks_removeARPSender_self s d h
      unfold liveTasks at this
      exact this
    rw [h1]
    simp
  · -- exactly one canceller entry for d
    unfold cancellerEntries
    rw [hcanc, List.filter_append]
    have h1 : (removeARPSender s d).canceller.filter (fun e => e.1 == d) = [] := by
      rw [List.filter_eq_nil_iff]
      intro e he
      have := lookupCanceller_eq_none.mp hnone e he
      simpa using this
    rw [h1]
    simp

/-- In a well-formed state there is at most one live probing task per
device identifier. -/
theorem liveTasks_length_le_one (s : DiscoveryState) (d : String) (h : Inv s) :
    (liveTasks s d).length ≤ 1 := by
  have hnodup : ((liveTasks s d).map Task.id).Nodup :=
    ((List.filter_sublist s.tasks).map Task.id).nodup h.1
  cases hlist : liveTasks s d with
  | nil => simp
  | cons t rest =>
    cases rest with
    | nil => simp
    | cons t' rest' =>
      exfalso
      have ht : t ∈ liveTasks s d := by rw [hlist]; exact List.mem_cons_self t _
      have ht' : t' ∈ liveTasks s d := by
        rw [hlist]
        exact List.mem_cons_of_mem t (List.mem_cons_self t' rest')
      obtain ⟨htm, htp⟩ := List.mem_filter.mp ht
      obtain ⟨htm', htp'⟩ := List.mem_filter.mp ht'
      simp only [Bool.and_eq_true, beq_iff_eq, Bool.not_eq_true'] at htp htp'
      have e1 := h.2.2 t htm htp.2
      have e2 := h.2.2 t' htm' htp'.2
      rw [htp.1] at e1
      rw [htp'.1] at e2
      rw [e1] at e2
      rw [hlist] at hnodup
      simp only [List.map_cons, List.nodup_cons, List.mem_cons] at hnodup
      exact hnodup.1 (Or.inl (Option.some.inj e2))

/-! ## Claim C2: one live probing task per device -/

/-- Claim C2: from any well-formed state, a `DeviceUp` event preserves
well-formedness and keeps at most one live probing task per device
identifier (it first cancels and deletes any prior canceller-table entry
before starting the new task); in particular two consecutive `DeviceUp`
events for the same device id leave exactly one live probing task and
exactly one canceller-table entry for that device. -/
theorem onDeviceUp_single_live_task (s : DiscoveryState) (d : String) (h : Inv s) :
    Inv (OnDeviceUp s d) ∧
    (∀ d', (liveTasks (OnDeviceUp s d) d').length ≤ 1) ∧
    (liveTasks (OnDeviceUp (OnDeviceUp s d) d) d).length = 1 ∧
    (cancellerEntries (OnDeviceUp (OnDeviceUp s d) d) d).length = 1 := by
  obtain ⟨h1, -, -⟩ := onDeviceUp_spec s d h
  obtain ⟨-, hl2, he2⟩ := onDeviceUp_spec (OnDeviceUp s d) d h1
  exact ⟨h1, fun d' => liveTasks_length_le_one _ d' h1,
    by rw [hl2]; rfl, by rw [he2]; rfl⟩

theorem onDeviceUp_single_live_task_witness :
    (liveTasks (OnDeviceUp (OnDeviceUp newProcessor samplePort.deviceID)
        samplePort.deviceID) samplePort.deviceID).length = 1 ∧
    (cancellerEntries (OnDeviceUp (OnDeviceUp newProcessor samplePort.deviceID)
        samplePort.deviceID) samplePort.deviceID).length = 1 :=
  ⟨(onDeviceUp_single_live_task newProcessor samplePort.deviceID (by decide)).2.2.1,
   (onDeviceUp_single_live_task newProcessor samplePort.deviceID (by decide)).2.2.2⟩

end Cherry
